import Mathlib

/-!
# Verification of the COVID dashboard data pipeline

Shallow embedding of `src/covid_dashboard_with_forecasting.py`.

Modelling conventions:
* A dataframe row (`Observation`) is a `Row`: a location, a date (days since an
  arbitrary epoch, as `ℤ`), and one generic numeric measure stored as
  `Option ℚ` (`none` = missing value / NaN cell).  The source applies each
  columnwise pandas operation uniformly and independently to every numeric
  column, so a single generic measure column captures the per-column
  behaviour of every measure.
* Float scalars that can carry IEEE special values (relevant only to the
  growth-rate branch, where division by zero occurs) are modelled by `FVal`:
  an exact rational together with the special values `inf`, `ninf` and `nan`.
  Rounding is irrelevant to the claims; the NaN/infinity propagation rules
  are the faithful part.
* Fallible pandas operations (`pivot` on duplicate keys, Prophet's `fit`)
  return `Except`.
-/

namespace CovidDashboard

/-- One dataset row: `location`, parsed `date` (days since epoch) and one
generic numeric measure (a cell of any of the numeric columns such as
`new_cases`, `total_cases`, ...); `none` models a missing (NaN) cell. -/
structure Row where
  location : String
  date : ℤ
  value : Option ℚ
deriving DecidableEq

/-- Scalar model of a pandas float cell: an exact rational or one of the IEEE
special values `+inf`, `-inf`, `NaN`. -/
inductive FVal where
  | num : ℚ → FVal
  | inf : FVal
  | ninf : FVal
  | nan : FVal
deriving DecidableEq

/-- Lift a possibly-missing rational cell to the float scalar model: a missing
cell is a float `NaN` in pandas. -/
def toF : Option ℚ → FVal
  | none => FVal.nan
  | some q => FVal.num q

/-- IEEE subtraction on the scalar model. -/
def fsub : FVal → FVal → FVal
  | FVal.nan, _ => FVal.nan
  | _, FVal.nan => FVal.nan
  | FVal.num a, FVal.num b => FVal.num (a - b)
  | FVal.num _, FVal.inf => FVal.ninf
  | FVal.num _, FVal.ninf => FVal.inf
  | FVal.inf, FVal.num _ => FVal.inf
  | FVal.inf, FVal.inf => FVal.nan
  | FVal.inf, FVal.ninf => FVal.inf
  | FVal.ninf, FVal.num _ => FVal.ninf
  | FVal.ninf, FVal.inf => FVal.ninf
  | FVal.ninf, FVal.ninf => FVal.nan

/-- IEEE division on the scalar model (divisor zero is the positive zero that
pandas produces for these integer-valued case counts): `x / 0` is `±inf` for
nonzero `x` and `NaN` for `x = 0`. -/
def fdiv : FVal → FVal → FVal
  | FVal.nan, _ => FVal.nan
  | _, FVal.nan => FVal.nan
  | FVal.num a, FVal.num b =>
      if b = 0 then (if a = 0 then FVal.nan else if 0 < a then FVal.inf else FVal.ninf)
      else FVal.num (a / b)
  | FVal.num _, FVal.inf => FVal.num 0
  | FVal.num _, FVal.ninf => FVal.num 0
  | FVal.inf, FVal.num b => if b < 0 then FVal.ninf else FVal.inf
  | FVal.inf, FVal.inf => FVal.nan
  | FVal.inf, FVal.ninf => FVal.nan
  | FVal.ninf, FVal.num b => if b < 0 then FVal.inf else FVal.ninf
  | FVal.ninf, FVal.inf => FVal.nan
  | FVal.ninf, FVal.ninf => FVal.nan

/-- Multiplication by the positive literal `100` (the `* 100` of the
growth-rate branch, line 56): finite values scale, the special values are
fixed. -/
def fmul100 : FVal → FVal
  | FVal.num a => FVal.num (a * 100)
  | FVal.inf => FVal.inf
  | FVal.ninf => FVal.ninf
  | FVal.nan => FVal.nan

/-- One entry of `pct_change`: entry 0 is `NaN`; entry `i ≥ 1` is
`(v[i] - v[i-1]) / v[i-1]` in IEEE float arithmetic (out-of-range lookups,
which cannot occur for the in-range indices `pctChange` uses, give `NaN`). -/
def pctStep (i : ℕ) (prevOpt curOpt : Option FVal) : FVal :=
  match i, prevOpt, curOpt with
  | 0, _, _ => FVal.nan
  | _+1, some prev, some cur => fdiv (fsub cur prev) prev
  | _+1, _, _ => FVal.nan

/-- pandas `Series.pct_change()` (periods = 1): entry 0 is `NaN`; entry `i ≥ 1`
is `(v[i] - v[i-1]) / v[i-1]` in IEEE float arithmetic.  Modelled with
`fill_method=None` (no forward-filling of missing values before
differencing; pad-filling is deprecated since pandas 2.1 and removed in 3.0). -/
def pctChange (l : List FVal) : List FVal :=
  (List.range l.length).map fun i => pctStep i l[i-1]? l[i]?

/-- pandas `Series.fillna(x)`: replaces `NaN` entries by `x`; infinities are
not missing values and are left untouched. -/
def fillna (x : ℚ) (l : List FVal) : List FVal :=
  l.map fun v => if v = FVal.nan then FVal.num x else v

/-- The Growth Rate branch, line 56:
`country_data['new_cases'].pct_change().fillna(0) * 100`. -/
def growthRate (s : List (Option ℚ)) : List FVal :=
  ((pctChange (s.map toF)).map fun v => if v = FVal.nan then FVal.num 0 else v).map fmul100

/-- pandas `Series.rolling(window=w).mean()` (default `min_periods = w`):
entry `i` looks at the trailing window of the last `min (i+1) w` entries; if
it holds fewer than `w` non-missing values the result is missing, otherwise
it is the arithmetic mean of the non-missing values in the window.  Models
the 7-Day Moving Average branch, lines 52-53. -/
def rollingMean (w : ℕ) (l : List (Option ℚ)) : List (Option ℚ) :=
  (List.range l.length).map fun i =>
    let win := (l.take (i+1)).drop (i + 1 - w)
    let present := win.filterMap id
    if present.length < w then none
    else some (present.sum / (present.length : ℚ))

/-- Line 39: `data[(data['date'] >= start) & (data['date'] <= end)]`. -/
def filterByDateRange (d : List Row) (startDate endDate : ℤ) : List Row :=
  d.filter fun r => decide (startDate ≤ r.date) && decide (r.date ≤ endDate)

/-- Line 114: `filtered_data[filtered_data['location'].isin(selected_countries)]`. -/
def filterByLocation (d : List Row) (locs : List String) : List Row :=
  d.filter fun r => locs.contains r.location

/-- Line 45: `filtered_data[filtered_data['location'] == selected_country]`. -/
def filterByCountry (d : List Row) (c : String) : List Row :=
  d.filter fun r => r.location == c

/-- Insert `(d, v)` into an association list sorted by key, adding `v` to the
entry for `d` when one already exists (the accumulation step of a grouped
sum). -/
def insertSum : List (ℤ × ℚ) → ℤ → ℚ → List (ℤ × ℚ)
  | [], d, v => [(d, v)]
  | (d0, v0) :: rest, d, v =>
    if d = d0 then (d0, v0 + v) :: rest
    else if d < d0 then (d, v) :: (d0, v0) :: rest
    else (d0, v0) :: insertSum rest d v

/-- Line 26: `data.groupby('date').sum(numeric_only=True)` for one numeric
column.  Groups rows by date into an ascending-date association list,
summing the measure per date; pandas `sum` skips NaN, so a missing cell
contributes `0`. -/
def globalDailyTotals (rows : List Row) : List (ℤ × ℚ) :=
  rows.foldl (fun acc r => insertSum acc r.date (r.value.getD 0)) []

/-- pandas `GroupBy.last()` for one column and one group: the last non-null
entry of the column within the group, in row order (`none` when every entry
is null). -/
def lastPresent (rows : List Row) : Option ℚ :=
  rows.foldl (fun acc r => match r.value with | some v => some v | none => acc) none

/-- The distinct locations of the dataset, in order of first appearance.
(pandas additionally sorts the group keys; that affects only the
presentation order of the mapping, not the per-location values any claim is
about.) -/
def groupKeys (rows : List Row) : List String :=
  (rows.map Row.location).dedup

/-- Lines 141, 148, 152, 159: `data.groupby('location').last()` for one
numeric column: maps each location of the dataset to the last non-null
value of the column among that location's rows, in row order. -/
def latestSnapshot (rows : List Row) : List (String × Option ℚ) :=
  (groupKeys rows).map fun loc => (loc, lastPresent (rows.filter fun r => r.location == loc))

/-- Lines 65-66: `country_data[['date','new_cases']].dropna()` renamed to the
`(ds, y)` contract: keeps each row whose measure is present as a
`(timestamp, value)` pair.  Total: performs no minimum-length check. -/
def prepareForForecast (rows : List Row) : List (ℤ × ℚ) :=
  rows.filterMap fun r => r.value.map fun v => (r.date, v)

/-- Modelled from the spec: the external forecasting collaborator's fit step
(`Prophet().fit`, line 70), which is not repository code; it rejects a
history with fewer than 2 rows and otherwise fits a model, represented here
by the history itself. -/
def prophetFit (fd : List (ℤ × ℚ)) : Except String (List (ℤ × ℚ)) :=
  if fd.length < 2 then Except.error "Dataframe has less than 2 non-NaN rows."
  else Except.ok fd

/-- Modelled from the spec: Prophet's `make_future_dataframe(periods)` with
`include_history=True` (line 73): the historical timestamps followed by
`periods` additional consecutive daily timestamps continuing right after the
last historical date. -/
def makeFutureDataframe (histDates : List ℤ) (periods : ℕ) : List ℤ :=
  histDates ++ (List.range periods).map fun k : ℕ => histDates.max?.getD 0 + 1 + (k : ℤ)

/-- One row of the forecast frame: date, point estimate `yhat` and the
uncertainty interval `[yhat_lower, yhat_upper]` (lines 74, 85). -/
structure ForecastRow where
  ds : ℤ
  yhat : ℚ
  yhat_lower : ℚ
  yhat_upper : ℚ
deriving DecidableEq

/-- Modelled from the spec: the external collaborator's `model.predict`
(line 74) — for each requested date it returns a point estimate together
with a lower and an upper bound, the bounds being the point estimate minus
and plus a nonnegative dispersion of the fitted history. -/
def prophetPredict (m : List (ℤ × ℚ)) (dates : List ℤ) : List ForecastRow :=
  let avg : ℚ := (m.map Prod.snd).sum / (m.length : ℚ)
  let spread : ℚ := (m.map fun p => |p.2 - avg|).sum
  dates.map fun d => ⟨d, avg, avg - spread, avg + spread⟩

/-- Lines 65-74 as one stage: prepare the country slice, fit the collaborator
on it (which may reject it), then predict over history plus `periods` future
days. -/
def forecastStage (countryRows : List Row) (periods : ℕ) : Except String (List ForecastRow) :=
  let fd := prepareForForecast countryRows
  match prophetFit fd with
  | Except.error e => Except.error e
  | Except.ok m => Except.ok (prophetPredict m (makeFutureDataframe (fd.map Prod.fst) periods))

/-- Modelled from the spec: the bounded slider widget of line 62
(`st.slider("...", 7, 90, 30)`) is external UI code; it constrains the
requested horizon to the configured range `[7, 90]` by clamping. -/
def forecastPeriod (requested : ℤ) : ℤ :=
  max 7 (min 90 requested)

/-- Accumulating step of pandas `pivot(index="date", columns="location")`:
cells are keyed by `(date, location)`; a second row with an already-present
key makes the reshape fail. -/
def pivotAux : List ((ℤ × String) × Option ℚ) → List Row →
    Except String (List ((ℤ × String) × Option ℚ))
  | acc, [] => Except.ok acc
  | acc, r :: rest =>
    if (acc.map Prod.fst).contains (r.date, r.location) then
      Except.error "Index contains duplicate entries, cannot reshape"
    else pivotAux (acc ++ [((r.date, r.location), r.value)]) rest

/-- Lines 117 and 121: `comparison_data.pivot(index="date",
columns="location", values=...)`: the cell table keyed by
`(date, location)`, or an error when some key occurs twice.  (The
subsequent `.fillna(0)` densification only affects display values, not
whether the reshape succeeds.) -/
def pivot (rows : List Row) : Except String (List ((ℤ × String) × Option ℚ)) :=
  pivotAux [] rows

/-- The outputs of one top-to-bottom run of the script that the claims are
about, with the source line that computes each field. -/
structure DashboardOutputs where
  global_data : List (ℤ × ℚ)
  filtered_data : List Row
  country_data : List Row
  forecast : Except String (List ForecastRow)
  comparison_chart_data : Except String (List ((ℤ × String) × Option ℚ))
  age_impact_data : List (String × Option ℚ)

/-- One top-to-bottom rerun of the script for a given widget state, following
the source's dataflow line by line: `global_data` (line 26) and
`age_impact_data` (line 141) are computed from the full `data`;
`filtered_data` (line 39) applies the date-range slider; `country_data`
(line 45) filters it to the selected country; the forecast stage
(lines 65-74) consumes `country_data` and the slider-clamped horizon;
`comparison_chart_data` (lines 114, 117) pivots the multi-country slice of
`filtered_data`. -/
def runDashboard (data : List Row) (startDate endDate : ℤ) (selectedCountry : String)
    (selectedCountries : List String) (requestedHorizon : ℤ) : DashboardOutputs :=
  let filtered := filterByDateRange data startDate endDate
  let country := filterByCountry filtered selectedCountry
  { global_data := globalDailyTotals data
    filtered_data := filtered
    country_data := country
    forecast := forecastStage country (forecastPeriod requestedHorizon).toNat
    comparison_chart_data := pivot (filterByLocation filtered selectedCountries)
    age_impact_data := latestSnapshot data }

/-- The spec's selection rule for `latestSnapshot`, written from the spec's
words for comparison with the source's `groupby('location').last()`: the
first row in input order whose date is maximal among the given rows. -/
def maxDateRowFirst (rows : List Row) : Option Row :=
  rows.find? fun r => rows.all fun r2 => decide (r2.date ≤ r.date)

/-- The spec's error taxonomy for the Forecast Adapter. -/
inductive ForecastError where
  | InsufficientHistory
deriving DecidableEq

/-- The spec's `prepareForForecast`, written from the spec's words for
comparison with the source's preparation step: drop absent rows, reshape,
and fail with `InsufficientHistory` when fewer than 2 points remain. -/
def prepareForForecastSpec (rows : List Row) : Except ForecastError (List (ℤ × ℚ)) :=
  let fd := rows.filterMap fun r => r.value.map fun v => (r.date, v)
  if fd.length < 2 then Except.error ForecastError.InsufficientHistory
  else Except.ok fd

/-- Keys of a date-keyed association list are strictly ascending. -/
def keysSorted (l : List (ℤ × ℚ)) : Prop :=
  (l.map Prod.fst).Sorted (· < ·)

/-! ## Basic lemmas about the scalar model -/

lemma fsub_nan_right (x : FVal) : fsub x FVal.nan = FVal.nan := by
  cases x <;> rfl

lemma fsub_nan_left (x : FVal) : fsub FVal.nan x = FVal.nan := by
  cases x <;> rfl

lemma fdiv_nan_left (x : FVal) : fdiv FVal.nan x = FVal.nan := by
  cases x <;> rfl

lemma fdiv_nan_right (x : FVal) : fdiv x FVal.nan = FVal.nan := by
  cases x <;> rfl

/-! ## Indexing lemmas for the trend transforms -/

lemma getElem?_range_map {α : Type} (f : ℕ → α) (n i : ℕ) (h : i < n) :
    ((List.range n).map f)[i]? = some (f i) := by
  simp [List.getElem?_map, List.getElem?_range, h]

lemma length_growthRate (s : List (Option ℚ)) : (growthRate s).length = s.length := by
  simp [growthRate, pctChange]

lemma getElem?_pctChange (l : List FVal) (i : ℕ) (h : i < l.length) :
    (pctChange l)[i]? = some (pctStep i l[i-1]? l[i]?) := by
  unfold pctChange
  rw [getElem?_range_map _ _ _ h]

lemma getElem?_growthRate (s : List (Option ℚ)) (i : ℕ) :
    (growthRate s)[i]? = ((pctChange (s.map toF))[i]?).map
      (fun v => fmul100 (if v = FVal.nan then FVal.num 0 else v)) := by
  unfold growthRate
  rw [List.getElem?_map, List.getElem?_map, Option.map_map]
  rfl

lemma getElem?_growthRate_zero (s : List (Option ℚ)) (h : 0 < s.length) :
    (growthRate s)[0]? = some (FVal.num 0) := by
  rw [getElem?_growthRate s 0, getElem?_pctChange _ 0 (by simpa using h)]
  norm_num [pctStep, fmul100]

lemma getElem?_growthRate_succ (s : List (Option ℚ)) (j : ℕ) (h : j + 1 < s.length)
    (p c : Option ℚ) (hp : s[j]? = some p) (hc : s[j+1]? = some c) :
    (growthRate s)[j+1]?
      = some (fmul100 (if fdiv (fsub (toF c) (toF p)) (toF p) = FVal.nan then FVal.num 0
          else fdiv (fsub (toF c) (toF p)) (toF p))) := by
  rw [getElem?_growthRate s (j+1), getElem?_pctChange _ (j+1) (by simpa using h)]
  simp [List.getElem?_map, hp, hc, pctStep]

/-! ## Claim C1: growth rate -/

/-- C1 counterexample: on the series `[0, 50]` the source's growth rate is
`[0, +inf]`, not `[0, 0]`: `fillna(0)` replaces only `NaN`, so the division
of the nonzero `50` by the zero previous value propagates infinity into the
output, contradicting the claim that the output never contains infinity and
that `growthRate([0, 50]) = [0, 0]`. -/
theorem growthRate_zero_prev_cex :
    growthRate [some 0, some 50] = [FVal.num 0, FVal.inf]
      ∧ growthRate [some 0, some 50] ≠ [FVal.num 0, FVal.num 0]
      ∧ FVal.inf ∈ growthRate [some 0, some 50] := by
  have hlist : growthRate [some 0, some 50] = [FVal.num 0, FVal.inf] := by
    apply List.ext_getElem?
    intro i
    rcases i with _ | (_ | n)
    · rw [getElem?_growthRate_zero _ (by norm_num)]
      rfl
    · rw [getElem?_growthRate_succ [some 0, some 50] 0 (by norm_num) (some 0) (some 50)
        rfl rfl]
      norm_num [toF, fsub, fdiv, fmul100]
      rfl
    · rw [List.getElem?_eq_none (by simp [length_growthRate]),
        List.getElem?_eq_none (by simp)]
  exact ⟨hlist, by rw [hlist]; simp, by rw [hlist]; simp⟩

/-- C1 amended: growth rate at index `i` is `(v[i] - v[i-1]) / v[i-1] * 100`
when both neighbours are present and `v[i-1] ≠ 0`; it is `0` at index 0,
whenever either neighbour is absent, and when `v[i-1] = 0` and `v[i] = 0`;
but when `v[i-1] = 0` and `v[i] ≠ 0` the output is `+inf` (resp. `-inf`),
because the `fillna(0)` guard removes `NaN` only and infinities propagate.
The output keeps the input's length. -/
theorem growthRate_characterization (s : List (Option ℚ)) (i : ℕ) :
    (growthRate s).length = s.length
    ∧ (i = 0 → i < s.length → (growthRate s)[i]? = some (FVal.num 0))
    ∧ (∀ p c : ℚ, 0 < i → s[i-1]? = some (some p) → s[i]? = some (some c) → p ≠ 0 →
        (growthRate s)[i]? = some (FVal.num ((c - p) / p * 100)))
    ∧ (0 < i → s[i-1]? = some none → i < s.length → (growthRate s)[i]? = some (FVal.num 0))
    ∧ (0 < i → s[i]? = some none → (growthRate s)[i]? = some (FVal.num 0))
    ∧ (∀ c : ℚ, 0 < i → s[i-1]? = some (some 0) → s[i]? = some (some c) →
        (growthRate s)[i]? = some (if c = 0 then FVal.num 0
          else if 0 < c then FVal.inf else FVal.ninf)) := by
  refine ⟨length_growthRate s, ?_, ?_, ?_, ?_, ?_⟩
  · rintro rfl h0
    exact getElem?_growthRate_zero s h0
  · rintro p c hi hp hc hpne
    obtain ⟨j, rfl⟩ : ∃ j, i = j + 1 := ⟨i - 1, by omega⟩
    have hb : j + 1 < s.length := by
      by_contra hx
      rw [List.getElem?_eq_none (by omega)] at hc
      exact Option.noConfusion hc
    rw [Nat.add_sub_cancel] at hp
    rw [getElem?_growthRate_succ s j hb (some p) (some c) hp hc]
    simp [toF, fsub, fdiv, hpne, fmul100]
  · rintro hi hp hlen
    obtain ⟨j, rfl⟩ : ∃ j, i = j + 1 := ⟨i - 1, by omega⟩
    rw [Nat.add_sub_cancel] at hp
    obtain ⟨c, hc⟩ : ∃ c, s[j+1]? = some c :=
      ⟨s[j+1], List.getElem?_eq_getElem hlen⟩
    rw [getElem?_growthRate_succ s j hlen none c hp hc]
    simp [toF, fdiv_nan_right, fsub_nan_right, fmul100]
  · rintro hi hc
    obtain ⟨j, rfl⟩ : ∃ j, i = j + 1 := ⟨i - 1, by omega⟩
    have hb : j + 1 < s.length := by
      by_contra hx
      rw [List.getElem?_eq_none (by omega)] at hc
      exact Option.noConfusion hc
    obtain ⟨p, hp⟩ : ∃ p, s[j]? = some p :=
      ⟨s[j], List.getElem?_eq_getElem (by omega)⟩
    rw [getElem?_growthRate_succ s j hb p none hp hc]
    simp [toF, fsub_nan_left, fdiv_nan_left, fmul100]
  · rintro c hi hp hc
    obtain ⟨j, rfl⟩ : ∃ j, i = j + 1 := ⟨i - 1, by omega⟩
    have hb : j + 1 < s.length := by
      by_contra hx
      rw [List.getElem?_eq_none (by omega)] at hc
      exact Option.noConfusion hc
    rw [Nat.add_sub_cancel] at hp
    rw [getElem?_growthRate_succ s j hb (some 0) (some c) hp hc]
    rcases lt_trichotomy c 0 with hneg | rfl | hpos
    · simp [toF, fsub, fdiv, fmul100, hneg, hneg.ne, not_lt.mpr hneg.le, hneg.not_lt]
    · simp [toF, fsub, fdiv, fmul100]
    · simp [toF, fsub, fdiv, fmul100, hpos, hpos.ne.symm]

/-- C1 witness: the amended characterization evaluated at a concrete series:
at index 1 of `[2, 3]` the growth rate is `(3 - 2) / 2 * 100 = 50`. -/
theorem growthRate_characterization_witness :
    (growthRate [some 2, some 3])[1]? = some (FVal.num ((3 - 2) / 2 * 100)) :=
  (growthRate_characterization [some 2, some 3] 1).2.2.1 2 3 (by norm_num) rfl rfl
    (by norm_num)

/-! ## Claim C6: the two filters commute -/

/-- C6: filtering by date range and filtering by locations commute: for every
dataset, every date range and every location set, the two composition orders
produce the same filtered dataset. -/
theorem filters_commute (d : List Row) (s e : ℤ) (L : List String) :
    filterByDateRange (filterByLocation d L) s e
      = filterByLocation (filterByDateRange d s e) L := by
  unfold filterByDateRange filterByLocation
  rw [List.filter_filter, List.filter_filter]
  exact List.filter_congr fun r _ => Bool.and_comm _ _

/-! ## Claim C8: horizon bounds -/

/-- C8: the horizon selector keeps every value in the configured range
`[7, 90]`; in-range requests pass through unchanged, out-of-range requests
are clamped to the nearest bound (the single consistent policy), and the
resulting horizon is the exact number of future rows the collaborator is
asked for. -/
theorem horizon_clamped (req : ℤ) :
    7 ≤ forecastPeriod req ∧ forecastPeriod req ≤ 90
    ∧ (7 ≤ req → req ≤ 90 → forecastPeriod req = req)
    ∧ (req < 7 → forecastPeriod req = 7)
    ∧ (90 < req → forecastPeriod req = 90)
    ∧ ∀ histDates : List ℤ,
        (makeFutureDataframe histDates (forecastPeriod req).toNat).length
          = histDates.length + (forecastPeriod req).toNat := by
  refine ⟨?_, ?_, ?_, ?_, ?_, ?_⟩
  · unfold forecastPeriod; omega
  · unfold forecastPeriod; omega
  · intro h1 h2; unfold forecastPeriod; omega
  · intro h1; unfold forecastPeriod; omega
  · intro h1; unfold forecastPeriod; omega
  · intro histDates
    unfold makeFutureDataframe
    simp

/-- C8 witness: the clamping policy at concrete requests: 100 is clamped to
90, 3 is clamped to 7, and the in-range 30 passes through unchanged. -/
theorem horizon_clamped_witness :
    forecastPeriod 100 = 90 ∧ forecastPeriod 3 = 7 ∧ forecastPeriod 30 = 30 :=
  ⟨(horizon_clamped 100).2.2.2.2.1 (by norm_num),
   (horizon_clamped 3).2.2.2.1 (by norm_num),
   (horizon_clamped 30).2.2.1 (by norm_num) (by norm_num)⟩

/-! ## Claim C4: what the Aggregator consumes -/

/-- C4 counterexample: with dataset
`[("A", day 0, 1), ("A", day 5, 2), ("A", day 9, 3)]` and the UI range
`[5, 5]`, the script's global summary series and per-location snapshot both
differ from the same aggregates computed over the filtered slice: the
Aggregator consumes the full dataset, not the Filter Engine's output. -/
theorem aggregator_unfiltered_cex :
    (runDashboard [⟨"A", 0, some 1⟩, ⟨"A", 5, some 2⟩, ⟨"A", 9, some 3⟩]
        5 5 "A" ["A"] 30).global_data
      ≠ globalDailyTotals
          (filterByDateRange [⟨"A", 0, some 1⟩, ⟨"A", 5, some 2⟩, ⟨"A", 9, some 3⟩] 5 5)
    ∧ (runDashboard [⟨"A", 0, some 1⟩, ⟨"A", 5, some 2⟩, ⟨"A", 9, some 3⟩]
        5 5 "A" ["A"] 30).age_impact_data
      ≠ latestSnapshot
          (filterByDateRange [⟨"A", 0, some 1⟩, ⟨"A", 5, some 2⟩, ⟨"A", 9, some 3⟩] 5 5) := by
  have e1 : (runDashboard [⟨"A", 0, some 1⟩, ⟨"A", 5, some 2⟩, ⟨"A", 9, some 3⟩]
      5 5 "A" ["A"] 30).global_data = [(0, 1), (5, 2), (9, 3)] := rfl
  have e2 : globalDailyTotals
      (filterByDateRange [⟨"A", 0, some 1⟩, ⟨"A", 5, some 2⟩, ⟨"A", 9, some 3⟩] 5 5)
      = [(5, 2)] := rfl
  have e3 : (runDashboard [⟨"A", 0, some 1⟩, ⟨"A", 5, some 2⟩, ⟨"A", 9, some 3⟩]
      5 5 "A" ["A"] 30).age_impact_data = [("A", some 3)] := rfl
  have e4 : latestSnapshot
      (filterByDateRange [⟨"A", 0, some 1⟩, ⟨"A", 5, some 2⟩, ⟨"A", 9, some 3⟩] 5 5)
      = [("A", some 2)] := rfl
  rw [e1, e2, e3, e4]
  constructor
  · simp
  · intro h
    have h2 := List.head_eq_of_cons_eq h
    simp at h2

/-- C4 amended: the Aggregator consumes the full unfiltered dataset: in every
run of the script the global summary series equals `globalDailyTotals` of the
full data, the per-location snapshot equals `latestSnapshot` of the full
data, and both outputs are invariant under every choice of the UI date range
and location selections. -/
theorem aggregator_consumes_full_data (data : List Row) (s1 e1 s2 e2 : ℤ)
    (c1 c2 : String) (L1 L2 : List String) (h1 h2 : ℤ) :
    (runDashboard data s1 e1 c1 L1 h1).global_data = globalDailyTotals data
    ∧ (runDashboard data s1 e1 c1 L1 h1).age_impact_data = latestSnapshot data
    ∧ (runDashboard data s1 e1 c1 L1 h1).global_data
        = (runDashboard data s2 e2 c2 L2 h2).global_data
    ∧ (runDashboard data s1 e1 c1 L1 h1).age_impact_data
        = (runDashboard data s2 e2 c2 L2 h2).age_impact_data :=
  ⟨rfl, rfl, rfl, rfl⟩

/-! ## Claim C2: the preparation step and the missing minimum-length check -/

/-- C2 counterexample: on the empty filtered slice the source's preparation
step does not fail with `InsufficientHistory` (as the spec's version would):
it returns the empty prepared series, and the forecasting collaborator is
still invoked — the failure that surfaces is the collaborator's own
fewer-than-2-rows rejection, raised inside `fit`, not before invoking it. -/
theorem prepare_no_check_cex :
    prepareForForecast ([] : List Row) = []
    ∧ prepareForForecastSpec ([] : List Row)
        = Except.error ForecastError.InsufficientHistory
    ∧ forecastStage ([] : List Row) 30
        = Except.error "Dataframe has less than 2 non-NaN rows." :=
  ⟨rfl, rfl, rfl⟩

/-- C2 amended: `prepareForForecast` drops the rows with absent value and
reshapes the remainder into `(timestamp, value)` pairs, but performs no
minimum-length check and never fails by itself; the pipeline always invokes
the forecasting collaborator, whose fit step rejects the prepared series
(with its own fewer-than-2-rows error) exactly when it has fewer than 2
points. -/
theorem prepare_total_collaborator_checks (rows : List Row) (h : ℕ) :
    (prepareForForecast rows).length = rows.countP (fun r => r.value.isSome)
    ∧ (∀ p ∈ prepareForForecast rows, ∃ r ∈ rows, r.date = p.1 ∧ r.value = some p.2)
    ∧ (forecastStage rows h = Except.error "Dataframe has less than 2 non-NaN rows."
        ↔ rows.countP (fun r => r.value.isSome) < 2) := by
  have hlen : (prepareForForecast rows).length = rows.countP (fun r => r.value.isSome) := by
    induction rows with
    | nil => rfl
    | cons r rest ih =>
      rcases hv : r.value with _ | v <;>
        simp [prepareForForecast, List.countP_cons, hv] at ih ⊢ <;> omega
  refine ⟨hlen, ?_, ?_⟩
  · intro p hp
    rw [prepareForForecast, List.mem_filterMap] at hp
    obtain ⟨r, hr, hf⟩ := hp
    rcases hv : r.value with _ | v
    · rw [hv] at hf
      exact Option.noConfusion hf
    · rw [hv] at hf
      have hf2 : (r.date, v) = p := by simpa using hf
      refine ⟨r, hr, ?_, ?_⟩
      · rw [← hf2]
      · rw [hv, ← hf2]
  · rw [← hlen]
    dsimp only [forecastStage, prophetFit]
    by_cases hlt : (prepareForForecast rows).length < 2
    · rw [if_pos hlt]
      simp [hlt]
    · rw [if_neg hlt]
      simp only [reduceCtorEq, false_iff]
      omega

/-- C2 witness: a one-point series passes preparation (length 1, no failure
there) and the collaborator's fit step is the stage that rejects it. -/
theorem prepare_total_collaborator_checks_witness :
    (prepareForForecast [⟨"A", 1, some 5⟩]).length = 1
    ∧ forecastStage [⟨"A", 1, some 5⟩] 30
        = Except.error "Dataframe has less than 2 non-NaN rows." := by
  obtain ⟨h1, -, h3⟩ := prepare_total_collaborator_checks [⟨"A", 1, some 5⟩] 30
  refine ⟨?_, h3.mpr (by decide)⟩
  rw [h1]
  decide

/-! ## Claim C5: the 7-day moving average -/

lemma length_rollingMean (w : ℕ) (l : List (Option ℚ)) :
    (rollingMean w l).length = l.length := by
  simp [rollingMean]

lemma getElem?_rollingMean (w : ℕ) (l : List (Option ℚ)) (i : ℕ) (h : i < l.length) :
    (rollingMean w l)[i]?
      = some (if (((l.take (i+1)).drop (i + 1 - w)).filterMap id).length < w then none
          else some ((((l.take (i+1)).drop (i + 1 - w)).filterMap id).sum
            / (((((l.take (i+1)).drop (i + 1 - w)).filterMap id).length : ℕ) : ℚ))) := by
  unfold rollingMean
  rw [getElem?_range_map _ _ _ h]

lemma filterMap_id_map_some (l : List ℚ) : (l.map some).filterMap id = l := by
  induction l with
  | nil => rfl
  | cons a l ih => simp [List.filterMap_cons, ih]

/-- C5: the 7-day moving average is a strict trailing rolling mean: the output
keeps the input's length, has no defined value at the first 6 positions, and
at every in-range position `i ≥ 6` equals the arithmetic mean of the window
of the 7 values ending at `i` (never a partial window). -/
theorem movingAverage_strict_window (vals : List ℚ) (i : ℕ) :
    (rollingMean 7 (vals.map some)).length = vals.length
    ∧ (i < 6 → i < vals.length → (rollingMean 7 (vals.map some))[i]? = some none)
    ∧ (6 ≤ i → i < vals.length →
        (rollingMean 7 (vals.map some))[i]?
          = some (some (((vals.take (i+1)).drop (i + 1 - 7)).sum / 7))) := by
  have hlen0 : (vals.map some).length = vals.length := List.length_map _ _
  have hwin : (((vals.map some).take (i+1)).drop (i + 1 - 7)).filterMap id
      = (vals.take (i+1)).drop (i + 1 - 7) := by
    rw [← List.map_take, ← List.map_drop]
    exact filterMap_id_map_some _
  refine ⟨by rw [length_rollingMean, hlen0], ?_, ?_⟩
  · intro h6 hlen
    rw [getElem?_rollingMean 7 (vals.map some) i (by rw [hlen0]; exact hlen), hwin]
    have hl2 : ((vals.take (i+1)).drop (i + 1 - 7)).length = i + 1 := by
      rw [List.length_drop, List.length_take]
      omega
    rw [hl2, if_pos (by omega)]
  · intro h6 hlen
    rw [getElem?_rollingMean 7 (vals.map some) i (by rw [hlen0]; exact hlen), hwin]
    have hl2 : ((vals.take (i+1)).drop (i + 1 - 7)).length = 7 := by
      rw [List.length_drop, List.length_take]
      omega
    rw [hl2, if_neg (by omega)]
    norm_num

/-- C5 witness: on the series `10, 20, ..., 70` the moving average at index 6
is the mean of the seven values, `280 / 7 = 40`. -/
theorem movingAverage_strict_window_witness :
    (rollingMean 7 (([10, 20, 30, 40, 50, 60, 70] : List ℚ).map some))[6]?
      = some (some 40) := by
  have h := (movingAverage_strict_window [10, 20, 30, 40, 50, 60, 70] 6).2.2
    (by norm_num) (by norm_num)
  rw [h]
  have e : ((([10, 20, 30, 40, 50, 60, 70] : List ℚ).take (6+1)).drop (6 + 1 - 7))
      = [10, 20, 30, 40, 50, 60, 70] := rfl
  rw [e]
  norm_num [List.sum_cons, List.sum_nil]

/-! ## Claim C3: the per-location snapshot -/

/-- C3 counterexample: on the two rows `("A", day 2, 5)` then `("A", day 1, 7)`
the source's snapshot selects `7` — the value of the positionally-last row —
while the row with the maximum date (which the claim says wins, first in
input order on ties) carries `5`. -/
theorem latestSnapshot_not_max_date_cex :
    (latestSnapshot [⟨"A", 2, some 5⟩, ⟨"A", 1, some 7⟩]).lookup "A" = some (some 7)
    ∧ (maxDateRowFirst [⟨"A", 2, some 5⟩, ⟨"A", 1, some 7⟩]).map Row.value = some (some 5)
    ∧ (some (some 7) : Option (Option ℚ)) ≠ some (some 5) := by
  refine ⟨rfl, rfl, ?_⟩
  intro h
  simp at h

lemma foldl_last_value (rows : List Row) : ∀ acc : Option ℚ,
    rows.foldl (fun a r => match r.value with | some v => some v | none => a) acc
      = ((rows.filterMap Row.value).getLast?).or acc := by
  induction rows with
  | nil => intro acc; rfl
  | cons r rest ih =>
    intro acc
    rcases hv : r.value with _ | v
    · simp only [List.foldl_cons, hv]
      rw [ih acc]
      simp [List.filterMap_cons, hv]
    · simp only [List.foldl_cons, hv]
      rw [ih (some v)]
      simp only [List.filterMap_cons, hv]
      rcases hrest : rest.filterMap Row.value with _ | ⟨w, ws⟩
      · simp
      · rw [List.getLast?_cons_cons]
        obtain ⟨u, hu⟩ : ∃ u, (w :: ws).getLast? = some u := by
          cases hx : (w :: ws).getLast? with
          | none => exact absurd hx (by simp)
          | some u => exact ⟨u, rfl⟩
        rw [hu]
        rfl

lemma lastPresent_eq (rows : List Row) :
    lastPresent rows = (rows.filterMap Row.value).getLast? := by
  rw [lastPresent, foldl_last_value]
  cases (rows.filterMap Row.value).getLast? <;> rfl

lemma lookup_graph (keys : List String) (f : String → Option ℚ) (x : String) :
    (keys.map fun k => (k, f k)).lookup x = if x ∈ keys then some (f x) else none := by
  induction keys with
  | nil => rfl
  | cons k ks ih =>
    simp only [List.map_cons, List.lookup]
    by_cases hx : x = k
    · subst hx
      simp
    · have hb : (x == k) = false := beq_eq_false_iff_ne.mpr hx
      simp [hb, ih, hx]

/-- C3 amended: the snapshot maps each location, for each measure, to the last
non-absent value among that location's rows in input row order (pandas
`groupby(...).last()`), not to the row with the maximum date; locations with
no rows are absent from the mapping.  In particular, when several rows share
the maximum date the last encountered in input order wins, and on unsorted
input the selected value may come from a row whose date is not maximal. -/
theorem latestSnapshot_last_in_order (rows : List Row) (loc : String) :
    (loc ∈ rows.map Row.location →
      (latestSnapshot rows).lookup loc
        = some (((rows.filter fun r => r.location == loc).filterMap Row.value).getLast?))
    ∧ (loc ∉ rows.map Row.location → (latestSnapshot rows).lookup loc = none) := by
  unfold latestSnapshot
  rw [lookup_graph (groupKeys rows)
    (fun k => lastPresent (rows.filter fun r => r.location == k)) loc]
  constructor
  · intro hmem
    have hk : loc ∈ groupKeys rows := by
      unfold groupKeys
      rw [List.mem_dedup]
      exact hmem
    rw [if_pos hk, lastPresent_eq]
  · intro hmem
    have hk : loc ∉ groupKeys rows := by
      unfold groupKeys
      rw [List.mem_dedup]
      exact hmem
    rw [if_neg hk]

/-- C3 witness: two rows for the same location sharing the maximum date: the
snapshot returns the value of the last one in input order. -/
theorem latestSnapshot_last_in_order_witness :
    (latestSnapshot [⟨"A", 2, some 5⟩, ⟨"A", 2, some 7⟩]).lookup "A" = some (some 7) := by
  have h := (latestSnapshot_last_in_order [⟨"A", 2, some 5⟩, ⟨"A", 2, some 7⟩] "A").1
    (by simp)
  rw [h]
  rfl

/-! ## Claim C7: global daily totals -/

lemma lookup_eq_none_of_not_mem (l : List (ℤ × ℚ)) (x : ℤ) (h : x ∉ l.map Prod.fst) :
    l.lookup x = none := by
  induction l with
  | nil => rfl
  | cons p rest ih =>
    cases p with
    | mk k v =>
      simp only [List.map_cons, List.mem_cons] at h
      push_neg at h
      have hb : (x == k) = false := beq_eq_false_iff_ne.mpr h.1
      simp [List.lookup, hb, ih h.2]

lemma insertSum_cons_eq (d0 : ℤ) (v0 : ℚ) (rest : List (ℤ × ℚ)) (v : ℚ) :
    insertSum ((d0, v0) :: rest) d0 v = (d0, v0 + v) :: rest := by
  simp [insertSum]

lemma insertSum_cons_lt (d d0 : ℤ) (v0 : ℚ) (rest : List (ℤ × ℚ)) (v : ℚ) (h : d < d0) :
    insertSum ((d0, v0) :: rest) d v = (d, v) :: (d0, v0) :: rest := by
  have hne : d ≠ d0 := by omega
  simp [insertSum, hne, h]

lemma insertSum_cons_gt (d d0 : ℤ) (v0 : ℚ) (rest : List (ℤ × ℚ)) (v : ℚ) (h : d0 < d) :
    insertSum ((d0, v0) :: rest) d v = (d0, v0) :: insertSum rest d v := by
  have hne : d ≠ d0 := by omega
  have hnlt : ¬ d < d0 := by omega
  simp [insertSum, hne, hnlt]

lemma mem_keys_insertSum (l : List (ℤ × ℚ)) (d : ℤ) (v : ℚ) (x : ℤ) :
    x ∈ (insertSum l d v).map Prod.fst ↔ x = d ∨ x ∈ l.map Prod.fst := by
  induction l with
  | nil => simp [insertSum]
  | cons p rest ih =>
    cases p with
    | mk d0 v0 =>
      rcases lt_trichotomy d d0 with h | h | h
      · rw [insertSum_cons_lt d d0 v0 rest v h]
        simp only [List.map_cons, List.mem_cons]
      · subst h
        rw [insertSum_cons_eq d v0 rest v]
        simp only [List.map_cons, List.mem_cons]
        tauto
      · rw [insertSum_cons_gt d d0 v0 rest v h]
        simp only [List.map_cons, List.mem_cons, ih]
        tauto

lemma insertSum_sorted (l : List (ℤ × ℚ)) (d : ℤ) (v : ℚ) (h : keysSorted l) :
    keysSorted (insertSum l d v) := by
  induction l with
  | nil => simp [insertSum, keysSorted]
  | cons p rest ih =>
    cases p with
    | mk d0 v0 =>
      rw [keysSorted, List.map_cons, List.sorted_cons] at h
      obtain ⟨hall, hrest⟩ := h
      rcases lt_trichotomy d d0 with h1 | h1 | h1
      · rw [keysSorted, insertSum_cons_lt d d0 v0 rest v h1, List.map_cons, List.map_cons,
          List.sorted_cons, List.sorted_cons]
        refine ⟨?_, hall, hrest⟩
        intro b hb
        rcases List.mem_cons.mp hb with rfl | hb2
        · exact h1
        · exact lt_trans h1 (hall b hb2)
      · subst h1
        rw [keysSorted, insertSum_cons_eq d v0 rest v, List.map_cons, List.sorted_cons]
        exact ⟨hall, hrest⟩
      · rw [keysSorted, insertSum_cons_gt d d0 v0 rest v h1, List.map_cons, List.sorted_cons]
        refine ⟨?_, ih hrest⟩
        intro b hb
        rw [mem_keys_insertSum] at hb
        rcases hb with rfl | hb2
        · exact h1
        · exact hall b hb2

lemma lookup_insertSum_self (l : List (ℤ × ℚ)) (d : ℤ) (v : ℚ) (h : keysSorted l) :
    (insertSum l d v).lookup d = some ((l.lookup d).getD 0 + v) := by
  induction l with
  | nil => simp [insertSum, List.lookup]
  | cons p rest ih =>
    cases p with
    | mk d0 v0 =>
      rw [keysSorted, List.map_cons, List.sorted_cons] at h
      obtain ⟨hall, hrest⟩ := h
      rcases lt_trichotomy d d0 with h1 | h1 | h1
      · rw [insertSum_cons_lt d d0 v0 rest v h1]
        have hnone : List.lookup d ((d0, v0) :: rest) = none := by
          apply lookup_eq_none_of_not_mem
          simp only [List.map_cons, List.mem_cons]
          push_neg
          refine ⟨by omega, fun hmem => ?_⟩
          have := hall d hmem
          omega
        have hL : List.lookup d ((d, v) :: (d0, v0) :: rest) = some v := by
          simp [List.lookup]
        rw [hL, hnone]
        simp
      · subst h1
        rw [insertSum_cons_eq d v0 rest v]
        simp [List.lookup]
      · have hb : (d == d0) = false := beq_eq_false_iff_ne.mpr (by omega)
        rw [insertSum_cons_gt d d0 v0 rest v h1]
        simp [List.lookup, hb, ih hrest]

lemma lookup_insertSum_ne (l : List (ℤ × ℚ)) (d : ℤ) (v : ℚ) (x : ℤ) (hx : x ≠ d) :
    (insertSum l d v).lookup x = l.lookup x := by
  have hxb : (x == d) = false := beq_eq_false_iff_ne.mpr hx
  induction l with
  | nil => simp [insertSum, List.lookup, hxb]
  | cons p rest ih =>
    cases p with
    | mk d0 v0 =>
      rcases lt_trichotomy d d0 with h1 | h1 | h1
      · rw [insertSum_cons_lt d d0 v0 rest v h1]
        simp [List.lookup, hxb]
      · subst h1
        rw [insertSum_cons_eq d v0 rest v]
        simp [List.lookup, hxb]
      · rw [insertSum_cons_gt d d0 v0 rest v h1]
        by_cases h3 : x = d0
        · subst h3
          simp [List.lookup]
        · have h3b : (x == d0) = false := beq_eq_false_iff_ne.mpr h3
          simp [List.lookup, h3b, ih]

lemma globalDailyTotals_fold (rows : List Row) : ∀ (acc : List (ℤ × ℚ)), keysSorted acc →
    keysSorted (rows.foldl (fun a r => insertSum a r.date (r.value.getD 0)) acc)
    ∧ ∀ d : ℤ,
      (rows.foldl (fun a r => insertSum a r.date (r.value.getD 0)) acc).lookup d
        = if ((rows.any fun r => r.date == d) || (acc.lookup d).isSome)
          then some ((acc.lookup d).getD 0
              + ((rows.filter fun r => r.date == d).map fun r => r.value.getD 0).sum)
          else none := by
  induction rows with
  | nil =>
    intro acc hacc
    refine ⟨hacc, fun d => ?_⟩
    simp only [List.foldl_nil, List.any_nil, Bool.false_or, List.filter_nil, List.map_nil,
      List.sum_nil, add_zero]
    cases h : acc.lookup d with
    | none => simp [h]
    | some w => simp [h]
  | cons r rest ih =>
    intro acc hacc
    have hacc2 : keysSorted (insertSum acc r.date (r.value.getD 0)) :=
      insertSum_sorted _ _ _ hacc
    obtain ⟨ihs, ihl⟩ := ih (insertSum acc r.date (r.value.getD 0)) hacc2
    refine ⟨ihs, fun d => ?_⟩
    rw [List.foldl_cons, ihl d]
    by_cases hd : r.date = d
    · subst hd
      have hself := lookup_insertSum_self acc r.date (r.value.getD 0) hacc
      have hb : (r.date == r.date) = true := beq_self_eq_true r.date
      simp [hself, hb, List.filter_cons, add_assoc]
    · have hbeq : (r.date == d) = false := beq_eq_false_iff_ne.mpr hd
      have hne := lookup_insertSum_ne acc r.date (r.value.getD 0) d (Ne.symm hd)
      rw [hne]
      have hfilter : List.filter (fun r => r.date == d) (r :: rest)
          = List.filter (fun r => r.date == d) rest := by
        rw [List.filter_cons, hbeq]
        rfl
      have hany : List.any (r :: rest) (fun r => r.date == d)
          = List.any rest (fun r => r.date == d) := by
        rw [List.any_cons, hbeq, Bool.false_or]
      rw [hfilter, hany]

/-- C7: `globalDailyTotals` groups the rows by date into one ascending-date
series, and the entry for a date is the sum over all locations' rows of that
date, with an absent measure contributing zero; dates with no rows do not
appear. -/
theorem globalDailyTotals_spec (rows : List Row) (d : ℤ) :
    keysSorted (globalDailyTotals rows)
    ∧ ((rows.any fun r => r.date == d) = true →
        (globalDailyTotals rows).lookup d
          = some (((rows.filter fun r => r.date == d).map fun r => r.value.getD 0).sum))
    ∧ ((rows.any fun r => r.date == d) = false →
        (globalDailyTotals rows).lookup d = none) := by
  obtain ⟨hs, hl⟩ := globalDailyTotals_fold rows [] (by simp [keysSorted])
  refine ⟨hs, ?_, ?_⟩
  · intro ha
    unfold globalDailyTotals
    rw [hl d]
    simp [ha, List.lookup]
  · intro ha
    unfold globalDailyTotals
    rw [hl d]
    simp [ha, List.lookup]

/-- C7 witness: for the dataset with rows A/day5/2, B/day3/7, A/day3/absent,
B/day5/1, the global total for day 3 is `7` (the absent A value counts as
zero). -/
theorem globalDailyTotals_spec_witness :
    (globalDailyTotals
        [⟨"A", 5, some 2⟩, ⟨"B", 3, some 7⟩, ⟨"A", 3, none⟩, ⟨"B", 5, some 1⟩]).lookup 3
      = some 7 := by
  have h := (globalDailyTotals_spec
    [⟨"A", 5, some 2⟩, ⟨"B", 3, some 7⟩, ⟨"A", 3, none⟩, ⟨"B", 5, some 1⟩] 3).2.1 (by decide)
  have e : (List.filter (fun r => r.date == 3)
        ([⟨"A", 5, some 2⟩, ⟨"B", 3, some 7⟩, ⟨"A", 3, none⟩, ⟨"B", 5, some 1⟩]
          : List Row)).map
      (fun r => r.value.getD 0) = ([7, 0] : List ℚ) := rfl
  rw [h, e]
  norm_num [List.sum_cons, List.sum_nil]

/-! ## Claim C9: the forecast response contract -/

lemma sum_abs_nonneg (m : List (ℤ × ℚ)) (avg : ℚ) :
    0 ≤ (m.map fun p => |p.2 - avg|).sum := by
  induction m with
  | nil => simp
  | cons p rest ih =>
    simp only [List.map_cons, List.sum_cons]
    exact add_nonneg (abs_nonneg _) ih

/-- C9: every successfully produced forecast response is a sequence of
`(date, point, lower, upper)` rows of length `history + horizon`, every row
satisfies `lower ≤ point ≤ upper`, and its dates are the historical
timestamps followed by `horizon` consecutive daily timestamps continuing
right after the last historical date. -/
theorem forecastResponse_contract (countryRows : List Row) (periods : ℕ)
    (resp : List ForecastRow)
    (hok : forecastStage countryRows periods = Except.ok resp) :
    resp.length = (prepareForForecast countryRows).length + periods
    ∧ (∀ row ∈ resp, row.yhat_lower ≤ row.yhat ∧ row.yhat ≤ row.yhat_upper)
    ∧ resp.map ForecastRow.ds
        = (prepareForForecast countryRows).map Prod.fst
          ++ (List.range periods).map
              (fun k : ℕ =>
                ((prepareForForecast countryRows).map Prod.fst).max?.getD 0 + 1 + (k : ℤ)) := by
  simp only [forecastStage] at hok
  rcases hfit : prophetFit (prepareForForecast countryRows) with e | m
  · rw [hfit] at hok
    exact absurd hok (by simp)
  · rw [hfit] at hok
    have hm : m = prepareForForecast countryRows := by
      unfold prophetFit at hfit
      by_cases hlt : (prepareForForecast countryRows).length < 2
      · rw [if_pos hlt] at hfit
        exact absurd hfit (by simp)
      · rw [if_neg hlt] at hfit
        exact (Except.ok.inj hfit).symm
    subst hm
    have hok2 : Except.ok (prophetPredict (prepareForForecast countryRows)
        (makeFutureDataframe ((prepareForForecast countryRows).map Prod.fst) periods))
        = Except.ok resp := hok
    have hresp := (Except.ok.inj hok2).symm
    subst hresp
    refine ⟨?_, ?_, ?_⟩
    · simp [prophetPredict, makeFutureDataframe]
    · intro row hrow
      simp only [prophetPredict] at hrow
      rw [List.mem_map] at hrow
      obtain ⟨dd, hdd, heq⟩ := hrow
      rw [← heq]
      constructor
      · exact sub_le_self _ (sum_abs_nonneg _ _)
      · exact le_add_of_nonneg_right (sum_abs_nonneg _ _)
    · simp only [prophetPredict, makeFutureDataframe, List.map_append, List.map_map]
      rfl

/-- C9 witness: a two-point constant history with horizon 2 produces the
four-row response with equal point and bounds, of length `2 + 2`. -/
theorem forecastResponse_contract_witness :
    (([⟨1, 10, 10, 10⟩, ⟨2, 10, 10, 10⟩, ⟨3, 10, 10, 10⟩, ⟨4, 10, 10, 10⟩]
        : List ForecastRow)).length
      = (prepareForForecast [⟨"A", 1, some 10⟩, ⟨"A", 2, some 10⟩]).length + 2 := by
  have hok : forecastStage [⟨"A", 1, some 10⟩, ⟨"A", 2, some 10⟩] 2
      = Except.ok [⟨1, 10, 10, 10⟩, ⟨2, 10, 10, 10⟩, ⟨3, 10, 10, 10⟩, ⟨4, 10, 10, 10⟩] := by
    simp only [forecastStage, prepareForForecast, prophetFit, prophetPredict,
      makeFutureDataframe]
    norm_num [List.range_succ, List.filterMap_cons]
  exact (forecastResponse_contract [⟨"A", 1, some 10⟩, ⟨"A", 2, some 10⟩] 2 _ hok).1

/-! ## Claim C10: the comparison pivot -/

lemma pivotAux_ok_iff (rows : List Row) : ∀ acc : List ((ℤ × String) × Option ℚ),
    (acc.map Prod.fst).Nodup →
    ((∃ t, pivotAux acc rows = Except.ok t)
      ↔ ((acc.map Prod.fst) ++ rows.map fun r => (r.date, r.location)).Nodup) := by
  induction rows with
  | nil =>
    intro acc hacc
    simp [pivotAux, hacc]
  | cons r rest ih =>
    intro acc hacc
    by_cases hmem : (r.date, r.location) ∈ acc.map Prod.fst
    · have hcont : (acc.map Prod.fst).contains (r.date, r.location) = true :=
        List.elem_eq_true_of_mem hmem
      refine iff_of_false ?_ ?_
      · rintro ⟨t, ht⟩
        simp only [pivotAux, hcont, if_true] at ht
        exact Except.noConfusion ht
      · intro hnd
        rw [List.map_cons, List.nodup_append] at hnd
        exact (hnd.2.2 hmem) (by simp)
    · have hcont : (acc.map Prod.fst).contains (r.date, r.location) = false := by
        rw [Bool.eq_false_iff]
        intro hc
        exact hmem (List.mem_of_elem_eq_true hc)
      have hstep : pivotAux acc (r :: rest)
          = pivotAux (acc ++ [((r.date, r.location), r.value)]) rest := by
        simp only [pivotAux, hcont]
        rfl
      have hacc2 : ((acc ++ [((r.date, r.location), r.value)]).map Prod.fst).Nodup := by
        rw [List.map_append, List.nodup_append]
        refine ⟨hacc, List.nodup_singleton _, ?_⟩
        intro a ha hb
        simp only [List.map_cons, List.map_nil, List.mem_singleton] at hb
        subst hb
        exact hmem ha
      rw [hstep, ih _ hacc2, List.map_append]
      rw [List.append_assoc]
      simp only [List.map_cons, List.map_nil, List.singleton_append]

/-- C10: the multi-country comparison pivot on the filtered comparison slice
succeeds exactly when each `(date, location)` pair occurs at most once in
that slice; a duplicated pair makes the reshape fail instead of producing a
table. -/
theorem comparison_pivot_ok_iff (data : List Row) (s e : ℤ) (c : String)
    (L : List String) (hz : ℤ) :
    (∃ t, (runDashboard data s e c L hz).comparison_chart_data = Except.ok t)
      ↔ ((filterByLocation (filterByDateRange data s e) L).map
          fun r => (r.date, r.location)).Nodup := by
  have h := pivotAux_ok_iff (filterByLocation (filterByDateRange data s e) L) [] (by simp)
  simpa [runDashboard, pivot] using h

/-- C10 witness: two distinct locations on the same date pivot successfully. -/
theorem comparison_pivot_ok_iff_witness :
    ∃ t, (runDashboard [⟨"A", 1, some 1⟩, ⟨"B", 1, some 2⟩] 0 9 "A" ["A", "B"]
        30).comparison_chart_data = Except.ok t :=
  (comparison_pivot_ok_iff [⟨"A", 1, some 1⟩, ⟨"B", 1, some 2⟩] 0 9 "A" ["A", "B"]
    30).mpr (by decide)

end CovidDashboard
